import Mathlib

/-!
Verification development for the Agri-Aide crop-diagnosis client.

The definitions below are shallow embeddings of the orchestration core of the
repository: the data model (src/types.ts), the screen/cache controller
`handleAnalyze` (src/App.tsx and the variant in src/unnamed/part_003), the
model-response parsing and confidence normalization of `analyzeCropImage`
(src/services/geminiService.ts and src/unnamed/part_004), the base64/PCM16
audio decode pipeline (`decodeBase64` / `decodeAudioData`), and the speech
playback toggle of src/components/ResultsScreen.tsx.

JavaScript numbers are modelled as `ℚ` (all values involved are exact in
double precision at the ranges used), strings as `String` or `List Char`,
thrown errors as `Except` with the thrown message, and the asynchronous
network boundary as an explicit outcome parameter.
-/

namespace AgriAide

/-! ## Data model, from src/types.ts -/

/-- The `Language` enum of src/types.ts. -/
inductive Language
  | EN
  | UR
  | SI
  | PS
  | BAL
deriving DecidableEq, Repr

/-- The `AppScreen` enum of src/types.ts. -/
inductive AppScreen
  | HOME
  | ANALYZING
  | RESULTS
  | HISTORY
  | HISTORY_DETAIL
  | ABOUT
  | CHAT
deriving DecidableEq, Repr

/-- `Crop` of src/types.ts; the `icon` field is a presentational React node
and carries no data relevant to the control flow, so it is omitted. -/
structure Crop where
  id : String
  name : String
deriving DecidableEq, Repr

/-- `GroundingLink` of src/types.ts. -/
structure GroundingLink where
  title : String
  uri : String
deriving DecidableEq, Repr

/-- The `remedies` record inside `AnalysisResult`. -/
structure Remedies where
  chemical : List String
  organic : List String
deriving DecidableEq, Repr

/-- `AnalysisResult` of src/types.ts.  Optional TS fields become `Option`;
`confidenceScore : number` becomes `ℚ`. -/
structure AnalysisResult where
  cropMismatch : Option Bool := none
  mismatchExplanation : Option String := none
  diseaseName : String
  confidenceScore : ℚ
  isHealthy : Bool
  description : String
  symptoms : List String
  remedies : Remedies
  preventiveMeasures : List String
  regionalAlerts : Option (List String) := none
  groundingLinks : Option (List GroundingLink) := none
deriving DecidableEq, Repr

/-- Geolocation payload (`latitude`/`longitude`) attached to a request. -/
structure GeoLocation where
  latitude : ℚ
  longitude : ℚ
deriving DecidableEq, Repr

/-- `ScanHistoryItem` of src/types.ts. -/
structure ScanHistoryItem where
  id : String
  timestamp : String
  crop : Crop
  image : String
  result : AnalysisResult
  location : Option GeoLocation := none
deriving DecidableEq, Repr

/-! ## Model-response parsing, from src/services/geminiService.ts and
src/unnamed/part_004 -/

/-- Index of the first occurrence of `'\x7b'` in the text, mirroring
`textResponse.indexOf('\x7b')` (except that the JS `-1` becomes `none`). -/
def firstBraceIdx : List Char → Option Nat
  | [] => none
  | c :: rest => if c = '{' then some 0 else (firstBraceIdx rest).map (· + 1)

/-- Index of the last occurrence of `'\x7d'` in the text, mirroring
`textResponse.lastIndexOf('\x7d')` (the JS `-1` becomes `none`). -/
def lastBraceIdx : List Char → Option Nat
  | [] => none
  | c :: rest =>
    match lastBraceIdx rest with
    | some i => some (i + 1)
    | none => if c = '}' then some 0 else none

/-- A C0/C1 control character, exactly the character class
`[\u0000-\u001F\u007F-\u009F]` of the cleaning regex in `analyzeCropImage`. -/
def isControlChar (c : Char) : Bool :=
  c.toNat ≤ 0x1F || (0x7F ≤ c.toNat && c.toNat ≤ 0x9F)

/-- `jsonString.replace(/[\u0000-\u001F\u007F-\u009F]/g, "")`: remove every
C0/C1 control character. -/
def cleanControl (s : List Char) : List Char :=
  s.filter (fun c => !(isControlChar c))

/-- The JSON-candidate extraction step of `analyzeCropImage` in
src/services/geminiService.ts (lines 91-104): locate the first `'\x7b'` and the
last `'\x7d'`, fail with the thrown message `ANALYSIS_FAILED` when either is
absent or out of order, otherwise take `textResponse.substring(firstBrace,
lastBrace + 1)` and strip control characters from it before `JSON.parse`. -/
def extractJsonBlock (text : List Char) : Except String (List Char) :=
  match firstBraceIdx text, lastBraceIdx text with
  | some fb, some lb =>
    if lb < fb then Except.error "ANALYSIS_FAILED"
    else Except.ok (cleanControl ((text.drop fb).take (lb - fb + 1)))
  | _, _ => Except.error "ANALYSIS_FAILED"

/-- The JSON-candidate extraction of the `analyzeCropImage` variant in
src/unnamed/part_004 (lines 88-92): `textResponse.match(/\x7b[\s\S]*\x7d/)`.
The greedy regex matches precisely from the first `'\x7b'` to the last
`'\x7d'` provided the latter comes after the former; on no match the code
throws `INVALID_RESPONSE_FORMAT`. -/
def extractJsonBlockV3 (text : List Char) : Except String (List Char) :=
  match firstBraceIdx text, lastBraceIdx text with
  | some fb, some lb =>
    if fb < lb then Except.ok (cleanControl ((text.drop fb).take (lb - fb + 1)))
    else Except.error "INVALID_RESPONSE_FORMAT"
  | _, _ => Except.error "INVALID_RESPONSE_FORMAT"

/-- The catch-all at the end of `analyzeCropImage` (src/unnamed/part_004
lines 104-107, and likewise in the variants embedded in src/types.ts):
`throw new Error(error.message === "API_KEY_NOT_CONFIGURED" ?
"API_KEY_NOT_CONFIGURED" : "ANALYSIS_FAILED")`. -/
def rethrowAnalysis (e : String) : String :=
  if e = "API_KEY_NOT_CONFIGURED" then e else "ANALYSIS_FAILED"

/-- The parse gate of the part_004 `analyzeCropImage` as observed by the
caller: the inner extraction runs inside the `try` block, so any error it
throws passes through the catch-all `rethrowAnalysis` before reaching the
caller. -/
def analyzeParseGate (text : List Char) : Except String (List Char) :=
  match extractJsonBlockV3 text with
  | Except.ok v => Except.ok v
  | Except.error e => Except.error (rethrowAnalysis e)

/-- Confidence-score normalization of `analyzeCropImage` in
src/unnamed/part_004 (lines 95-100; identically in the variant embedded in
src/types.ts):

* `typeof result.confidenceScore !== 'number'` (a missing or non-numeric
  field, modelled as `none`) is replaced by `85`;
* otherwise `result.confidenceScore <= 1` is replaced by
  `Math.round(result.confidenceScore * 100)`;
* otherwise the value is left unchanged.

`Math.round x = ⌊x + 1/2⌋` for every real `x`, which is Mathlib's `round`.
(The `analyzeCropImage` in src/services/geminiService.ts performs no
confidence normalization at all.) -/
def normalizeConfidence : Option ℚ → ℚ
  | none => 85
  | some x => if x ≤ 1 then (round (x * 100) : ℤ) else x

/-! ### First/last brace characterization -/

theorem firstBraceIdx_spec (s : List Char) (i : Nat)
    (h : firstBraceIdx s = some i) :
    s[i]? = some '{' ∧ ∀ k, k < i → s[k]? ≠ some '{' := by
  induction s generalizing i with
  | nil => simp [firstBraceIdx] at h
  | cons c rest ih =>
    by_cases hc : c = '{'
    · simp [firstBraceIdx, hc] at h
      subst h
      simp [hc]
    · simp [firstBraceIdx, hc] at h
      obtain ⟨i', hi', rfl⟩ := h
      obtain ⟨hget, hbefore⟩ := ih i' hi'
      refine ⟨by simpa using hget, ?_⟩
      intro k hk
      cases k with
      | zero => simpa using hc
      | succ k' =>
        simpa using hbefore k' (by omega)

theorem firstBraceIdx_le (s : List Char) (i : Nat)
    (h : s[i]? = some '{') :
    ∃ fb, firstBraceIdx s = some fb ∧ fb ≤ i := by
  induction s generalizing i with
  | nil => simp at h
  | cons c rest ih =>
    by_cases hc : c = '{'
    · exact ⟨0, by simp [firstBraceIdx, hc], Nat.zero_le i⟩
    · cases i with
      | zero =>
        simp at h
        exact absurd h hc
      | succ i' =>
        simp at h
        obtain ⟨fb, hfb, hle⟩ := ih i' h
        exact ⟨fb + 1, by simp [firstBraceIdx, hc, hfb], by omega⟩

theorem lastBraceIdx_none (s : List Char)
    (h : lastBraceIdx s = none) :
    ∀ k : Nat, s[k]? ≠ some '}' := by
  induction s with
  | nil => simp
  | cons c rest ih =>
    intro k
    unfold lastBraceIdx at h
    cases hrest : lastBraceIdx rest with
    | some i => simp [hrest] at h
    | none =>
      rw [hrest] at h
      have hc : c ≠ '}' := by
        intro hcc
        simp [hcc] at h
      cases k with
      | zero => simpa using hc
      | succ k' => simpa using ih hrest k'

theorem lastBraceIdx_spec (s : List Char) (j : Nat)
    (h : lastBraceIdx s = some j) :
    s[j]? = some '}' ∧ ∀ k, j < k → s[k]? ≠ some '}' := by
  induction s generalizing j with
  | nil => simp [lastBraceIdx] at h
  | cons c rest ih =>
    unfold lastBraceIdx at h
    cases hrest : lastBraceIdx rest with
    | some i =>
      rw [hrest] at h
      obtain rfl : i + 1 = j := by simpa using h
      obtain ⟨hget, hafter⟩ := ih i hrest
      refine ⟨by simpa using hget, ?_⟩
      intro k hk
      cases k with
      | zero => omega
      | succ k' => simpa using hafter k' (by omega)
    | none =>
      rw [hrest] at h
      have hc : c = '}' := by
        by_contra hcc
        simp [hcc] at h
      obtain rfl : 0 = j := by simpa [hc] using h
      refine ⟨by simp [hc], ?_⟩
      intro k hk
      cases k with
      | zero => omega
      | succ k' => simpa using lastBraceIdx_none rest hrest k'

theorem lastBraceIdx_ge (s : List Char) (j : Nat)
    (h : s[j]? = some '}') :
    ∃ lb, lastBraceIdx s = some lb ∧ j ≤ lb := by
  induction s generalizing j with
  | nil => simp at h
  | cons c rest ih =>
    cases j with
    | zero =>
      simp at h
      cases hrest : lastBraceIdx rest with
      | some i =>
        exact ⟨i + 1, by simp [lastBraceIdx, hrest], by omega⟩
      | none =>
        exact ⟨0, by simp [lastBraceIdx, hrest, h], le_refl 0⟩
    | succ j' =>
      simp at h
      obtain ⟨lb, hlb, hle⟩ := ih j' h
      exact ⟨lb + 1, by simp [lastBraceIdx, hlb], by omega⟩

/-! ### Claims about the parser -/

/-- Claim C4: for every model text that contains at least one opening brace
followed by a closing brace, the parser in `analyzeCropImage` takes exactly
the substring from the first opening brace to the last closing brace as the
candidate JSON, removes C0/C1 control characters from it before parsing, and
ignores all surrounding prose and markdown fencing.  Both the
`indexOf`/`lastIndexOf` extraction of src/services/geminiService.ts and the
greedy-regex extraction of src/unnamed/part_004 are covered. -/
theorem c4_first_to_last_extraction (text : List Char) (i j : Nat) (hij : i < j)
    (hi : text[i]? = some '{') (hj : text[j]? = some '}') :
    ∃ fb lb, fb ≤ i ∧ j ≤ lb ∧
      text[fb]? = some '{' ∧ (∀ k, k < fb → text[k]? ≠ some '{') ∧
      text[lb]? = some '}' ∧ (∀ k, lb < k → text[k]? ≠ some '}') ∧
      extractJsonBlock text =
        Except.ok (cleanControl ((text.drop fb).take (lb - fb + 1))) ∧
      extractJsonBlockV3 text =
        Except.ok (cleanControl ((text.drop fb).take (lb - fb + 1))) := by
  obtain ⟨fb, hfb, hfbi⟩ := firstBraceIdx_le text i hi
  obtain ⟨lb, hlb, hjlb⟩ := lastBraceIdx_ge text j hj
  obtain ⟨hfbget, hfbmin⟩ := firstBraceIdx_spec text fb hfb
  obtain ⟨hlbget, hlbmax⟩ := lastBraceIdx_spec text lb hlb
  have hfl : fb < lb := by omega
  refine ⟨fb, lb, hfbi, hjlb, hfbget, hfbmin, hlbget, hlbmax, ?_, ?_⟩
  · simp only [extractJsonBlock, hfb, hlb]
    rw [if_neg (by omega)]
  · simp only [extractJsonBlockV3, hfb, hlb]
    rw [if_pos hfl]

/-- A model reply wrapped in prose and a markdown fence, as in the spec's
example.  The opening brace sits at index 21, the closing one at index 28. -/
def fencedExample : List Char :=
  "Here you go:\n```json\n\x7b\"a\": 1\x7d\n```\nThanks".data

/-- Witness for C4: on the fenced example the parser extracts exactly the
braced object. -/
theorem c4_first_to_last_extraction_witness :
    21 < 28 ∧ fencedExample[21]? = some '{' ∧ fencedExample[28]? = some '}' ∧
    (∃ fb lb, fb ≤ 21 ∧ 28 ≤ lb ∧
      fencedExample[fb]? = some '{' ∧ (∀ k, k < fb → fencedExample[k]? ≠ some '{') ∧
      fencedExample[lb]? = some '}' ∧ (∀ k, lb < k → fencedExample[k]? ≠ some '}') ∧
      extractJsonBlock fencedExample =
        Except.ok (cleanControl ((fencedExample.drop fb).take (lb - fb + 1))) ∧
      extractJsonBlockV3 fencedExample =
        Except.ok (cleanControl ((fencedExample.drop fb).take (lb - fb + 1)))) :=
  ⟨by decide, by decide, by decide,
    c4_first_to_last_extraction fencedExample 21 28 (by decide) (by decide) (by decide)⟩

/-- A model reply with no JSON-looking substring at all. -/
def noJsonText : List Char :=
  "The leaf looks healthy! No structured data follows.".data

/-- Claim C5 counterexample: on a text with no brace pair,
src/services/geminiService.ts throws the generic `ANALYSIS_FAILED` directly,
and although the src/unnamed/part_004 variant throws
`INVALID_RESPONSE_FORMAT` internally, its catch-all rethrows it as
`ANALYSIS_FAILED`, so the caller cannot distinguish the missing-JSON case
from a generic analysis failure. -/
theorem c5_counterexample :
    extractJsonBlock noJsonText = Except.error "ANALYSIS_FAILED" ∧
    extractJsonBlockV3 noJsonText = Except.error "INVALID_RESPONSE_FORMAT" ∧
    analyzeParseGate noJsonText = Except.error "ANALYSIS_FAILED" ∧
    "ANALYSIS_FAILED" ≠ "INVALID_RESPONSE_FORMAT" :=
  ⟨rfl, rfl, rfl, by decide⟩

/-- Claim C5 as amended: for every model text containing no brace pair,
`analyzeCropImage` fails without crashing, but the error the caller observes
is the generic `ANALYSIS_FAILED` in every variant, not a distinct
`InvalidResponseFormat` kind. -/
theorem c5_generic_failure (text : List Char)
    (h : ∀ i : Nat, i < text.length → ∀ j : Nat, j < text.length → i < j →
        ¬(text[i]? = some '{' ∧ text[j]? = some '}')) :
    extractJsonBlock text = Except.error "ANALYSIS_FAILED" ∧
    analyzeParseGate text = Except.error "ANALYSIS_FAILED" := by
  cases hfb : firstBraceIdx text with
  | none =>
    cases hlb : lastBraceIdx text with
    | none =>
      exact ⟨by simp [extractJsonBlock, hfb, hlb],
        by simp [analyzeParseGate, extractJsonBlockV3, hfb, hlb, rethrowAnalysis]⟩
    | some lb =>
      exact ⟨by simp [extractJsonBlock, hfb, hlb],
        by simp [analyzeParseGate, extractJsonBlockV3, hfb, hlb, rethrowAnalysis]⟩
  | some fb =>
    cases hlb : lastBraceIdx text with
    | none =>
      exact ⟨by simp [extractJsonBlock, hfb, hlb],
        by simp [analyzeParseGate, extractJsonBlockV3, hfb, hlb, rethrowAnalysis]⟩
    | some lb =>
      have hfbget := (firstBraceIdx_spec text fb hfb).1
      have hlbget := (lastBraceIdx_spec text lb hlb).1
      have hfblen : fb < text.length := by
        obtain ⟨hh, -⟩ := List.getElem?_eq_some.mp hfbget
        exact hh
      have hlblen : lb < text.length := by
        obtain ⟨hh, -⟩ := List.getElem?_eq_some.mp hlbget
        exact hh
      have hnz : ¬ fb < lb := by
        intro hlt
        exact h fb hfblen lb hlblen hlt ⟨hfbget, hlbget⟩
      have hne : fb ≠ lb := by
        intro heq
        rw [heq, hlbget] at hfbget
        simp at hfbget
      have hlt : lb < fb := by omega
      constructor
      · simp only [extractJsonBlock, hfb, hlb]
        rw [if_pos hlt]
      · simp only [analyzeParseGate, extractJsonBlockV3, hfb, hlb]
        rw [if_neg hnz]
        rfl

/-- Concrete text for the C5 witness. -/
def c5WitnessText : List Char := "no data".data

/-- Witness for C5's amended theorem at the concrete brace-free reply. -/
theorem c5_generic_failure_witness :
    (∀ i : Nat, i < c5WitnessText.length → ∀ j : Nat, j < c5WitnessText.length →
      i < j → ¬(c5WitnessText[i]? = some '{' ∧ c5WitnessText[j]? = some '}')) ∧
    extractJsonBlock c5WitnessText = Except.error "ANALYSIS_FAILED" ∧
    analyzeParseGate c5WitnessText = Except.error "ANALYSIS_FAILED" :=
  ⟨by decide, c5_generic_failure c5WitnessText (by decide)⟩

/-- Claim C3 counterexample: the normalization of src/unnamed/part_004 does
not clamp.  A raw `confidenceScore` of `150` is delivered unchanged (the
claim demands `100`), and a raw score of `-5` falls into the `<= 1` fraction
branch and is delivered as `-500`, far outside `[0, 100]`. -/
theorem c3_counterexample :
    normalizeConfidence (some 150) = 150 ∧
    ¬ normalizeConfidence (some 150) ≤ 100 ∧
    normalizeConfidence (some (-5)) = -500 ∧
    ¬ 0 ≤ normalizeConfidence (some (-5)) := by
  refine ⟨?_, ?_, ?_, ?_⟩ <;> norm_num [normalizeConfidence, round_eq]

/-- Claim C3 as amended: the delivered confidence is `85` when the raw score
is missing or non-numeric, `round(x * 100)` when the raw score `x` satisfies
`x ≤ 1` (this includes the claim's `(0,1]` fraction case, but also zero and
all negative inputs), and the raw score unchanged when `x > 1` — there is no
clamping to `[0, 100]`.  Inputs in `(0,1]` do land in `[0, 100]`. -/
theorem c3_normalize_amended (v : ℚ) :
    normalizeConfidence none = 85 ∧
    (v ≤ 1 → normalizeConfidence (some v) = (round (v * 100) : ℤ)) ∧
    (1 < v → normalizeConfidence (some v) = v) ∧
    (0 < v → v ≤ 1 →
      0 ≤ normalizeConfidence (some v) ∧ normalizeConfidence (some v) ≤ 100) := by
  refine ⟨rfl, ?_, ?_, ?_⟩
  · intro hv
    simp [normalizeConfidence, hv]
  · intro hv
    simp [normalizeConfidence, not_le.mpr hv]
  · intro hpos hle
    simp only [normalizeConfidence, if_pos hle]
    constructor
    · have : (0 : ℤ) ≤ round (v * 100) := by
        rw [round_eq]
        apply Int.floor_nonneg.mpr
        nlinarith
      exact_mod_cast this
    · have hf : ⌊(v * 100 + 1 / 2 : ℚ)⌋ < (101 : ℤ) :=
        Int.floor_lt.mpr (by push_cast; nlinarith)
      have : round (v * 100) ≤ (100 : ℤ) := by
        rw [round_eq]
        omega
      exact_mod_cast this

/-- Witness for C3's amended theorem at the fraction input `1/2`. -/
theorem c3_normalize_amended_witness :
    ((1 : ℚ) / 2 ≤ 1 ∧ normalizeConfidence (some (1 / 2)) = (round ((1 / 2 : ℚ) * 100) : ℤ)) ∧
    (0 < (1 : ℚ) / 2 ∧ (1 : ℚ) / 2 ≤ 1 ∧
      0 ≤ normalizeConfidence (some (1 / 2)) ∧ normalizeConfidence (some (1 / 2)) ≤ 100) :=
  ⟨⟨by norm_num, (c3_normalize_amended (1 / 2)).2.1 (by norm_num)⟩,
    by norm_num, by norm_num,
    (c3_normalize_amended (1 / 2)).2.2.2 (by norm_num) (by norm_num)⟩

/-! ## Screen state machine and results cache, from src/App.tsx -/

/-- The outcome of the asynchronous `analyzeCropImage` call as seen by
`handleAnalyze`: either a parsed `AnalysisResult` or a thrown error whose
`message` is the given string. -/
inductive AnalyzeOutcome
  | success (result : AnalysisResult)
  | failure (message : String)
deriving DecidableEq, Repr

/-- The component state of `AppContent` in src/App.tsx that `handleAnalyze`
reads and writes.  `cache` is the `cacheRef` results cache, a map from image
string to a partial map from language to result; `error` holds the key of the
localized error message (`t('…')`). -/
structure AppState where
  screen : AppScreen
  history : List ScanHistoryItem
  currentResult : Option AnalysisResult
  currentImage : Option String
  currentCrop : Option Crop
  error : Option String
  cache : String → Language → Option AnalysisResult
  language : Language

/-- Shallow embedding of `handleAnalyze` from src/App.tsx (lines 50-111).

The function runs to completion on the single-threaded event loop; its
asynchronous boundary (geolocation plus the model call) is passed in as
`loc` and `outcome`, and `now` stands for `new Date().toISOString()`.
The returned `Bool` records whether a network analysis call was issued.

Control flow, in source order: compute `targetLanguage`; consult the cache
and on a hit set only the current result/image/crop and the screen; otherwise
show ANALYZING, set image/crop, clear the error, and dispatch on the call's
outcome — a `cropMismatch` result sets the error and returns Home, a normal
result is cached under `(image, targetLanguage)`, becomes current, is
appended to history when the image is new, and the screen becomes RESULTS;
a thrown error selects a message by its `message` string and returns Home. -/
def handleAnalyze (s : AppState) (crop : Crop) (image : String)
    (forceLanguage : Option Language) (outcome : AnalyzeOutcome)
    (loc : Option GeoLocation) (now : String) : AppState × Bool :=
  let targetLanguage := forceLanguage.getD s.language
  match s.cache image targetLanguage with
  | some cached =>
    ({ s with currentResult := some cached, currentImage := some image,
              currentCrop := some crop, screen := AppScreen.RESULTS }, false)
  | none =>
    let s1 := { s with screen := AppScreen.ANALYZING, currentImage := some image,
                       currentCrop := some crop, error := none }
    match outcome with
    | AnalyzeOutcome.success result =>
      if result.cropMismatch.getD false then
        ({ s1 with error := some "errorCropMismatch", screen := AppScreen.HOME }, true)
      else
        let s2 := { s1 with
          cache := fun i l =>
            if i = image ∧ l = targetLanguage then some result else s1.cache i l,
          currentResult := some result }
        let isNewScan := !(s2.history.any (fun item => item.image == image))
        let s3 :=
          if isNewScan then
            { s2 with history :=
                { id := now, timestamp := now, crop := crop, image := image,
                  result := result, location := loc } :: s2.history }
          else s2
        ({ s3 with screen := AppScreen.RESULTS }, true)
    | AnalyzeOutcome.failure msg =>
      let errKey :=
        if msg = "API_KEY_NOT_CONFIGURED" then "errorApiKey"
        else if msg = "ANALYSIS_FAILED" then "errorAnalysis"
        else "errorGeneral"
      ({ s1 with error := some errKey, screen := AppScreen.HOME }, true)

/-- The `AppContent` state of the older `App` variant embedded at the end of
src/unnamed/part_003 (lines 168-278), which has no results cache. -/
structure AppStateLegacy where
  screen : AppScreen
  history : List ScanHistoryItem
  currentResult : Option AnalysisResult
  currentImage : Option String
  currentCrop : Option Crop
  error : Option String
  language : Language
deriving DecidableEq, Repr

/-- Shallow embedding of the `handleAnalyze` of the older variant in
src/unnamed/part_003 (lines 178-211).  This variant has no cache, never
consults geolocation, and — crucially — performs no `cropMismatch` check:
every successful result is shown on RESULTS and appended to history when the
image is new. -/
def handleAnalyzeLegacy (s : AppStateLegacy) (crop : Crop) (image : String)
    (outcome : AnalyzeOutcome) (now : String) : AppStateLegacy :=
  let s1 := { s with screen := AppScreen.ANALYZING, currentImage := some image,
                     currentCrop := some crop, error := none }
  match outcome with
  | AnalyzeOutcome.success result =>
    let s2 := { s1 with currentResult := some result }
    let isNewScan := !(s2.history.any (fun item => item.image == image))
    let s3 :=
      if isNewScan then
        { s2 with history :=
            { id := now, timestamp := now, crop := crop, image := image,
              result := result, location := none } :: s2.history }
      else s2
    { s3 with screen := AppScreen.RESULTS }
  | AnalyzeOutcome.failure msg =>
    let errKey :=
      if msg = "API_KEY_NOT_CONFIGURED" then "errorApiKey"
      else if msg = "ANALYSIS_FAILED" then "errorAnalysis"
      else "errorGeneral"
    { s1 with error := some errKey, screen := AppScreen.HOME }

/-! ### Claims about the state machine -/

/-- Claim C1: per session, each `(image, language)` pair reaches the external
model at most once.  Concretely: (a) when the cache already holds a result
for the pair, `handleAnalyze` issues no network call and moves straight to
RESULTS with the cached result; (b) a fresh successful, non-mismatched
analysis stores its result under the pair in the state it presents on
RESULTS; and (c) cache entries are never evicted or overwritten by any
`handleAnalyze` call, so (a) applies to every later request for the pair. -/
theorem c1_cache_at_most_once (s : AppState) (crop : Crop) (image : String)
    (fl : Option Language) (outcome : AnalyzeOutcome)
    (loc : Option GeoLocation) (now : String) :
    (∀ r, s.cache image (fl.getD s.language) = some r →
      handleAnalyze s crop image fl outcome loc now =
        ({ s with currentResult := some r, currentImage := some image,
                  currentCrop := some crop, screen := AppScreen.RESULTS }, false)) ∧
    (∀ r, s.cache image (fl.getD s.language) = none →
      outcome = AnalyzeOutcome.success r → r.cropMismatch.getD false = false →
      (handleAnalyze s crop image fl outcome loc now).2 = true ∧
      (handleAnalyze s crop image fl outcome loc now).1.cache image (fl.getD s.language) =
        some r ∧
      (handleAnalyze s crop image fl outcome loc now).1.screen = AppScreen.RESULTS) ∧
    (∀ img lang r, s.cache img lang = some r →
      (handleAnalyze s crop image fl outcome loc now).1.cache img lang = some r) := by
  refine ⟨?_, ?_, ?_⟩
  · intro r hr
    simp [handleAnalyze, hr]
  · intro r hmiss houtcome hmm
    subst houtcome
    simp [handleAnalyze, hmiss, hmm]
    split <;> simp
  · intro img lang r hr
    have hk : ¬(img = image ∧ lang = fl.getD s.language) ∨
        s.cache image (fl.getD s.language) = some r := by
      by_cases hk : img = image ∧ lang = fl.getD s.language
      · right
        rw [← hk.1, ← hk.2]
        exact hr
      · exact Or.inl hk
    cases hc : s.cache image (fl.getD s.language) with
    | some cached => simp [handleAnalyze, hc, hr]
    | none =>
      cases outcome with
      | success result =>
        by_cases hmm : result.cropMismatch.getD false
        · simp [handleAnalyze, hc, hmm, hr]
        · have hk2 : ¬(img = image ∧ lang = fl.getD s.language) := by
            cases hk with
            | inl h => exact h
            | inr h => rw [hc] at h; exact absurd h (by simp)
          simp only [handleAnalyze, hc, hmm, Bool.false_eq_true, if_false]
          split <;> simpa [hk2] using hr
      | failure msg => simp [handleAnalyze, hc, hr]

/-- A concrete diagnosis used by the state-machine witnesses. -/
def rustResult : AnalysisResult :=
  { diseaseName := "Wheat Rust", confidenceScore := 90, isHealthy := false,
    description := "Fungal infection", symptoms := ["orange pustules"],
    remedies := { chemical := ["fungicide"], organic := ["neem oil"] },
    preventiveMeasures := ["crop rotation"] }

/-- The wheat crop from the static catalog (icon omitted). -/
def wheatCrop : Crop := { id := "wheat", name := "Wheat" }

/-- The cotton crop from the static catalog (icon omitted). -/
def cottonCrop : Crop := { id := "cotton", name := "Cotton" }

/-- A session state in which `"leaf1"` has already been analyzed in English
as wheat and the result cached. -/
def cachedState : AppState :=
  { screen := AppScreen.HOME, history := [], currentResult := none,
    currentImage := none, currentCrop := none, error := none,
    cache := fun i l =>
      if i = "leaf1" ∧ l = Language.EN then some rustResult else none,
    language := Language.EN }

/-- A fresh session state with an empty cache. -/
def freshState : AppState :=
  { screen := AppScreen.HOME, history := [], currentResult := none,
    currentImage := none, currentCrop := none, error := none,
    cache := fun _ _ => none, language := Language.EN }

/-- Witness for C1: a cache hit short-circuits on `cachedState`; a fresh
success on `freshState` stores its result; entries survive any call. -/
theorem c1_cache_at_most_once_witness :
    (cachedState.cache "leaf1" ((none : Option Language).getD cachedState.language) =
        some rustResult ∧
      handleAnalyze cachedState wheatCrop "leaf1" none
          (AnalyzeOutcome.failure "unreached") none "t0" =
        ({ cachedState with
            currentResult := some rustResult,
            currentImage := some "leaf1",
            currentCrop := some wheatCrop,
            screen := AppScreen.RESULTS }, false)) ∧
    (freshState.cache "leaf1" ((none : Option Language).getD freshState.language) = none ∧
      AnalyzeOutcome.success rustResult = AnalyzeOutcome.success rustResult ∧
      rustResult.cropMismatch.getD false = false ∧
      (handleAnalyze freshState wheatCrop "leaf1" none
          (AnalyzeOutcome.success rustResult) none "t0").2 = true ∧
      (handleAnalyze freshState wheatCrop "leaf1" none
          (AnalyzeOutcome.success rustResult) none "t0").1.cache "leaf1"
          ((none : Option Language).getD freshState.language) = some rustResult ∧
      (handleAnalyze freshState wheatCrop "leaf1" none
          (AnalyzeOutcome.success rustResult) none "t0").1.screen = AppScreen.RESULTS) ∧
    (cachedState.cache "leaf1" Language.EN = some rustResult ∧
      (handleAnalyze cachedState cottonCrop "leaf2" none
          (AnalyzeOutcome.failure "ANALYSIS_FAILED") none "t1").1.cache "leaf1"
          Language.EN = some rustResult) :=
  ⟨⟨by decide,
      (c1_cache_at_most_once cachedState wheatCrop "leaf1" none
        (AnalyzeOutcome.failure "unreached") none "t0").1 rustResult (by decide)⟩,
    ⟨by decide, rfl, by decide,
      (c1_cache_at_most_once freshState wheatCrop "leaf1" none
        (AnalyzeOutcome.success rustResult) none "t0").2.1 rustResult
        (by decide) rfl (by decide)⟩,
    ⟨by decide,
      (c1_cache_at_most_once cachedState cottonCrop "leaf2" none
        (AnalyzeOutcome.failure "ANALYSIS_FAILED") none "t1").2.2 "leaf1"
        Language.EN rustResult (by decide)⟩⟩

/-- Claim C10: on a cache hit, `handleAnalyze` has no side effects beyond
display state — the cache mapping, the history list, the error and the
language are untouched (in particular no history entry is appended even when
the image is absent from history); only the current result, image, crop and
screen change, and no network call is issued. -/
theorem c10_cache_hit_frame (s : AppState) (crop : Crop) (image : String)
    (fl : Option Language) (outcome : AnalyzeOutcome)
    (loc : Option GeoLocation) (now : String) (r : AnalysisResult)
    (hhit : s.cache image (fl.getD s.language) = some r) :
    (handleAnalyze s crop image fl outcome loc now).1.cache = s.cache ∧
    (handleAnalyze s crop image fl outcome loc now).1.history = s.history ∧
    (handleAnalyze s crop image fl outcome loc now).1.error = s.error ∧
    (handleAnalyze s crop image fl outcome loc now).1.language = s.language ∧
    (handleAnalyze s crop image fl outcome loc now).1.currentResult = some r ∧
    (handleAnalyze s crop image fl outcome loc now).1.currentImage = some image ∧
    (handleAnalyze s crop image fl outcome loc now).1.currentCrop = some crop ∧
    (handleAnalyze s crop image fl outcome loc now).1.screen = AppScreen.RESULTS ∧
    (handleAnalyze s crop image fl outcome loc now).2 = false := by
  simp [handleAnalyze, hhit]

/-- Witness for C10: the cache hit on `cachedState` leaves cache, history
and error untouched even though `"leaf1"` is absent from history. -/
theorem c10_cache_hit_frame_witness :
    cachedState.cache "leaf1" ((none : Option Language).getD cachedState.language) =
      some rustResult ∧
    (handleAnalyze cachedState wheatCrop "leaf1" none
        (AnalyzeOutcome.failure "unreached") none "t0").1.cache = cachedState.cache ∧
    (handleAnalyze cachedState wheatCrop "leaf1" none
        (AnalyzeOutcome.failure "unreached") none "t0").1.history = cachedState.history ∧
    (handleAnalyze cachedState wheatCrop "leaf1" none
        (AnalyzeOutcome.failure "unreached") none "t0").1.error = cachedState.error ∧
    (handleAnalyze cachedState wheatCrop "leaf1" none
        (AnalyzeOutcome.failure "unreached") none "t0").1.language = cachedState.language ∧
    (handleAnalyze cachedState wheatCrop "leaf1" none
        (AnalyzeOutcome.failure "unreached") none "t0").1.currentResult = some rustResult ∧
    (handleAnalyze cachedState wheatCrop "leaf1" none
        (AnalyzeOutcome.failure "unreached") none "t0").1.currentImage = some "leaf1" ∧
    (handleAnalyze cachedState wheatCrop "leaf1" none
        (AnalyzeOutcome.failure "unreached") none "t0").1.currentCrop = some wheatCrop ∧
    (handleAnalyze cachedState wheatCrop "leaf1" none
        (AnalyzeOutcome.failure "unreached") none "t0").1.screen = AppScreen.RESULTS ∧
    (handleAnalyze cachedState wheatCrop "leaf1" none
        (AnalyzeOutcome.failure "unreached") none "t0").2 = false :=
  ⟨by decide,
    c10_cache_hit_frame cachedState wheatCrop "leaf1" none
      (AnalyzeOutcome.failure "unreached") none "t0" rustResult (by decide)⟩

/-- A parsed result flagged as a crop mismatch. -/
def mismatchResult : AnalysisResult :=
  { cropMismatch := some true, mismatchExplanation := some "not a wheat leaf",
    diseaseName := "N/A", confidenceScore := 0, isHealthy := false,
    description := "", symptoms := [], remedies := { chemical := [], organic := [] },
    preventiveMeasures := [] }

/-- An initial state for the legacy (no-cache) `App` variant. -/
def legacyInit : AppStateLegacy :=
  { screen := AppScreen.HOME, history := [], currentResult := none,
    currentImage := none, currentCrop := none, error := none,
    language := Language.EN }

/-- Claim C2 counterexample: the `handleAnalyze` of the older variant in
src/unnamed/part_003 (lines 178-211) has no `cropMismatch` gate.  Fed a
parsed result with `cropMismatch: true`, it shows the RESULTS screen and
appends a history entry instead of returning Home and leaving history
unchanged. -/
theorem c2_legacy_counterexample :
    (handleAnalyzeLegacy legacyInit wheatCrop "leaf1"
        (AnalyzeOutcome.success mismatchResult) "t0").screen = AppScreen.RESULTS ∧
    (handleAnalyzeLegacy legacyInit wheatCrop "leaf1"
        (AnalyzeOutcome.success mismatchResult) "t0").history ≠ legacyInit.history ∧
    (handleAnalyzeLegacy legacyInit wheatCrop "leaf1"
        (AnalyzeOutcome.success mismatchResult) "t0").history.length = 1 := by
  refine ⟨by decide, by decide, by decide⟩

/-- Claim C2 as amended: in the cache-bearing `handleAnalyze` of src/App.tsx
(and the identical one at the top of src/unnamed/part_003), a fresh analysis
whose parsed result has `cropMismatch: true` transitions to Home with the
mismatch error and leaves both the persisted history and the in-memory cache
exactly as they were; the legacy variant at src/unnamed/part_003 lines
178-211 lacks this gate entirely. -/
theorem c2_mismatch_gate (s : AppState) (crop : Crop) (image : String)
    (fl : Option Language) (loc : Option GeoLocation) (now : String)
    (r : AnalysisResult)
    (hmiss : s.cache image (fl.getD s.language) = none)
    (hmm : r.cropMismatch = some true) :
    (handleAnalyze s crop image fl (AnalyzeOutcome.success r) loc now).1.screen =
      AppScreen.HOME ∧
    (handleAnalyze s crop image fl (AnalyzeOutcome.success r) loc now).1.history =
      s.history ∧
    (handleAnalyze s crop image fl (AnalyzeOutcome.success r) loc now).1.cache =
      s.cache ∧
    (handleAnalyze s crop image fl (AnalyzeOutcome.success r) loc now).1.error =
      some "errorCropMismatch" := by
  simp [handleAnalyze, hmiss, hmm]

/-- Witness for C2's amended theorem: a mismatch on the fresh session leaves
history and cache untouched and lands on Home. -/
theorem c2_mismatch_gate_witness :
    freshState.cache "leaf1" ((none : Option Language).getD freshState.language) = none ∧
    mismatchResult.cropMismatch = some true ∧
    (handleAnalyze freshState wheatCrop "leaf1" none
        (AnalyzeOutcome.success mismatchResult) none "t0").1.screen = AppScreen.HOME ∧
    (handleAnalyze freshState wheatCrop "leaf1" none
        (AnalyzeOutcome.success mismatchResult) none "t0").1.history = freshState.history ∧
    (handleAnalyze freshState wheatCrop "leaf1" none
        (AnalyzeOutcome.success mismatchResult) none "t0").1.cache = freshState.cache ∧
    (handleAnalyze freshState wheatCrop "leaf1" none
        (AnalyzeOutcome.success mismatchResult) none "t0").1.error =
      some "errorCropMismatch" :=
  ⟨by decide, by decide,
    c2_mismatch_gate freshState wheatCrop "leaf1" none none "t0" mismatchResult
      (by decide) (by decide)⟩

/-- Claim C9, settled against the code: the results cache of src/App.tsx is
keyed on `(image, language)` only — the crop is not part of the key.  With
the wheat diagnosis for `"leaf1"` cached in English, a request for the same
image and language but a *different* crop (cotton) is served from the cache:
no fresh model query is issued and the stale wheat diagnosis becomes the
current result shown on RESULTS.  The claim (and §4.2 of the spec) expects
the cache to be bypassed here; the spec's design notes flag this as a likely
latent defect of the source. -/
theorem c9_stale_cache_served :
    wheatCrop ≠ cottonCrop ∧
    (handleAnalyze cachedState cottonCrop "leaf1" none
        (AnalyzeOutcome.failure "unreached") none "t0").2 = false ∧
    (handleAnalyze cachedState cottonCrop "leaf1" none
        (AnalyzeOutcome.failure "unreached") none "t0").1.currentResult =
      some rustResult ∧
    (handleAnalyze cachedState cottonCrop "leaf1" none
        (AnalyzeOutcome.failure "unreached") none "t0").1.currentCrop =
      some cottonCrop ∧
    (handleAnalyze cachedState cottonCrop "leaf1" none
        (AnalyzeOutcome.failure "unreached") none "t0").1.screen =
      AppScreen.RESULTS := by
  refine ⟨by decide, ?_, ?_, ?_, ?_⟩ <;> simp [handleAnalyze, cachedState]

/-! ## Speech playback controller, from src/components/ResultsScreen.tsx -/

/-- The playback-relevant state of `ResultsScreen`.  Audio sources and
synthesis requests are identified by numeric tokens: `sourceRef` is
`audioSourceRef.current`, `activeSources` is the set of
`AudioBufferSourceNode`s on which `start()` has been called and not
`stop()`, `pendingRequests` holds the ids of `generateTTS` calls that have
been issued but whose continuation has not run yet, and `nextId` supplies
fresh ids. -/
structure SpeechState where
  isSpeaking : Bool
  isLoadingSpeech : Bool
  sourceRef : Option Nat
  activeSources : List Nat
  pendingRequests : List Nat
  nextId : Nat
deriving DecidableEq, Repr

/-- The synchronous part of `handleToggleSpeech` (src/components/
ResultsScreen.tsx lines 88-99): when speaking or loading, stop the source
held in `audioSourceRef` (if any), clear the ref and both flags, and return;
otherwise set the loading flag and issue a `generateTTS` request, whose
continuation runs later as `resolveSpeechRequest`. -/
def handleToggleSpeech (st : SpeechState) : SpeechState :=
  if st.isSpeaking || st.isLoadingSpeech then
    { st with
      activeSources :=
        match st.sourceRef with
        | some sid => st.activeSources.erase sid
        | none => st.activeSources,
      sourceRef := none,
      isSpeaking := false,
      isLoadingSpeech := false }
  else
    { st with
      isLoadingSpeech := true,
      pendingRequests := st.pendingRequests ++ [st.nextId],
      nextId := st.nextId + 1 }

/-- The continuation of `handleToggleSpeech` after `await generateTTS`
resolves (src/components/ResultsScreen.tsx lines 124-139): decode the audio,
`source.start()` the new buffer source, store it in `audioSourceRef`, set
`isSpeaking`, and finally clear the loading flag.  The source performs no
check that the request is still wanted — there is no active-request token —
so the continuation runs the same way even when the request was cancelled by
an intervening toggle. -/
def resolveSpeechRequest (st : SpeechState) (rid : Nat) : SpeechState :=
  if rid ∈ st.pendingRequests then
    { st with
      pendingRequests := st.pendingRequests.erase rid,
      activeSources := st.activeSources ++ [rid],
      sourceRef := some rid,
      isSpeaking := true,
      isLoadingSpeech := false }
  else st

/-- The idle controller state at mount. -/
def speechIdle : SpeechState :=
  { isSpeaking := false, isLoadingSpeech := false, sourceRef := none,
    activeSources := [], pendingRequests := [], nextId := 0 }

/-- Claim C8 counterexample: start speech (toggle 1), cancel it before the
synthesis resolves (toggle 2), then let the synthesis resolve.  The claim
requires the late result to be discarded, but the code starts playback: the
final state is speaking with the cancelled request's source active. -/
theorem c8_counterexample :
    (resolveSpeechRequest (handleToggleSpeech (handleToggleSpeech speechIdle)) 0).isSpeaking =
      true ∧
    (resolveSpeechRequest (handleToggleSpeech (handleToggleSpeech speechIdle)) 0).activeSources =
      [0] ∧
    ¬((resolveSpeechRequest (handleToggleSpeech (handleToggleSpeech speechIdle)) 0).isSpeaking =
        false ∧
      (resolveSpeechRequest (handleToggleSpeech (handleToggleSpeech speechIdle)) 0).activeSources =
        []) := by
  refine ⟨by decide, by decide, by decide⟩

/-- Claim C8 as amended: a toggle during loading or playing stops the
current source and returns the controller to idle, but a synthesis result
that resolves after its request was cancelled is *not* discarded — the
continuation starts playback unconditionally, and when nothing else was
active, the cancelled request's source ends up as the single active source.
At most one source is active after the two-invocation scenario, though not
because late results are discarded. -/
theorem c8_amended (st : SpeechState) (rid : Nat)
    (hbusy : st.isSpeaking = true ∨ st.isLoadingSpeech = true)
    (hpend : rid ∈ st.pendingRequests)
    (hactive : st.activeSources = []) :
    ((handleToggleSpeech st).isSpeaking = false ∧
      (handleToggleSpeech st).isLoadingSpeech = false ∧
      (handleToggleSpeech st).sourceRef = none ∧
      (handleToggleSpeech st).activeSources = []) ∧
    ((resolveSpeechRequest (handleToggleSpeech st) rid).isSpeaking = true ∧
      (resolveSpeechRequest (handleToggleSpeech st) rid).activeSources = [rid] ∧
      (resolveSpeechRequest (handleToggleSpeech st) rid).activeSources.length ≤ 1) := by
  have hcond : (st.isSpeaking || st.isLoadingSpeech) = true := by
    cases hbusy with
    | inl h => simp [h]
    | inr h => simp [h]
  have hstop : handleToggleSpeech st =
      { st with
        activeSources :=
          match st.sourceRef with
          | some sid => st.activeSources.erase sid
          | none => st.activeSources,
        sourceRef := none,
        isSpeaking := false,
        isLoadingSpeech := false } := by
    simp [handleToggleSpeech, hcond]
  have hersd : (match st.sourceRef with
      | some sid => st.activeSources.erase sid
      | none => st.activeSources) = [] := by
    cases st.sourceRef <;> simp [hactive]
  refine ⟨⟨?_, ?_, ?_, ?_⟩, ?_, ?_, ?_⟩ <;>
    simp [hstop, resolveSpeechRequest, hersd, hpend]

/-- The controller state right after a first toggle issued request `0`. -/
def speechLoading : SpeechState :=
  { isSpeaking := false, isLoadingSpeech := true, sourceRef := none,
    activeSources := [], pendingRequests := [0], nextId := 1 }

/-- Witness for C8's amended theorem: from the loading state, the second
toggle idles the controller, and the late resolution of request `0` starts
playback with `0` as the single active source. -/
theorem c8_amended_witness :
    (speechLoading.isSpeaking = true ∨ speechLoading.isLoadingSpeech = true) ∧
    0 ∈ speechLoading.pendingRequests ∧
    speechLoading.activeSources = [] ∧
    (((handleToggleSpeech speechLoading).isSpeaking = false ∧
      (handleToggleSpeech speechLoading).isLoadingSpeech = false ∧
      (handleToggleSpeech speechLoading).sourceRef = none ∧
      (handleToggleSpeech speechLoading).activeSources = []) ∧
    ((resolveSpeechRequest (handleToggleSpeech speechLoading) 0).isSpeaking = true ∧
      (resolveSpeechRequest (handleToggleSpeech speechLoading) 0).activeSources = [0] ∧
      (resolveSpeechRequest (handleToggleSpeech speechLoading) 0).activeSources.length ≤ 1)) :=
  ⟨Or.inr rfl, by decide, rfl,
    c8_amended speechLoading 0 (Or.inr rfl) (by decide) rfl⟩

/-! ## Audio decode pipeline, from src/services/geminiService.ts
(`decodeBase64`, `decodeAudioData`) -/

/-- Reinterpret two bytes as one little-endian signed 16-bit sample, as the
`Int16Array` view does. -/
def toInt16 (lo hi : Nat) : Int :=
  let u := lo + 256 * hi
  if u < 32768 then (u : Int) else (u : Int) - 65536

/-- `new Int16Array(buffer)`: reinterpret an (even-length) byte sequence as
little-endian signed 16-bit samples. -/
def bytesToInt16 : List Nat → List Int
  | [] => []
  | [_] => []
  | lo :: hi :: rest => toInt16 lo hi :: bytesToInt16 rest

/-- Shallow embedding of `decodeAudioData` (src/services/geminiService.ts
lines 192-215).  If the byte length is odd the final byte is dropped
(`buffer.slice(0, byteLength - 1)`); the remainder is viewed as little-endian
PCM16; `frameCount` is the sample count divided by the channel count; and
channel `c` receives sample `i * numChannels + c` divided by `32768.0` at
frame `i`.  The `sampleRate` argument only tags the created `AudioBuffer`
and does not influence the samples, so the embedding returns the per-channel
sample data. -/
def decodeAudioData (data : List Nat) (sampleRate : Nat) (numChannels : Nat) :
    List (List ℚ) :=
  let aligned := if data.length % 2 = 0 then data else data.take (data.length - 1)
  let dataInt16 := bytesToInt16 aligned
  let frameCount := dataInt16.length / numChannels
  (List.range numChannels).map (fun channel =>
    (List.range frameCount).map (fun i =>
      ((dataInt16.getD (i * numChannels + channel) 0 : ℤ) : ℚ) / 32768))

theorem bytesToInt16_length (l : List Nat) :
    (bytesToInt16 l).length = l.length / 2 := by
  match l with
  | [] => rfl
  | [a] => simp [bytesToInt16]
  | a :: b :: rest =>
    have ih := bytesToInt16_length rest
    simp only [bytesToInt16, List.length_cons, ih]
    omega

theorem decodeAudioData_even (data : List Nat) (sampleRate numChannels : Nat)
    (heven : data.length % 2 = 0) :
    decodeAudioData data sampleRate numChannels =
      (List.range numChannels).map (fun channel =>
        (List.range ((data.length / 2) / numChannels)).map (fun i =>
          ((bytesToInt16 data).getD (i * numChannels + channel) 0 : ℚ) / 32768)) := by
  simp only [decodeAudioData, bytesToInt16_length, heven]
  simp

/-- Claim C6: for every byte sequence of odd length, `decodeAudioData` does
not fail — it behaves exactly as on the even-length prefix obtained by
dropping the final byte, producing `numChannels` channel buffers of
`⌊byteLength / 2⌋ / numChannels` frames each. -/
theorem c6_odd_length_truncation (data : List Nat) (sampleRate numChannels : Nat)
    (hodd : data.length % 2 = 1) :
    decodeAudioData data sampleRate numChannels =
      decodeAudioData (data.take (data.length - 1)) sampleRate numChannels ∧
    (decodeAudioData data sampleRate numChannels).length = numChannels ∧
    ∀ ch ∈ decodeAudioData data sampleRate numChannels,
      ch.length = (data.length / 2) / numChannels := by
  have hlen : (data.take (data.length - 1)).length = data.length - 1 := by
    rw [List.length_take]
    omega
  have heven : (data.take (data.length - 1)).length % 2 = 0 := by
    rw [hlen]
    omega
  have hmain : decodeAudioData data sampleRate numChannels =
      decodeAudioData (data.take (data.length - 1)) sampleRate numChannels := by
    unfold decodeAudioData
    rw [if_neg (by omega), if_pos heven]
  refine ⟨hmain, by simp [decodeAudioData], ?_⟩
  intro ch hch
  rw [hmain, decodeAudioData_even _ _ _ heven] at hch
  simp only [List.mem_map, List.mem_range] at hch
  obtain ⟨channel, -, rfl⟩ := hch
  simp only [List.length_map, List.length_range, hlen]
  have h2 : (data.length - 1) / 2 = data.length / 2 := by omega
  rw [h2]

/-- Witness for C6 at the three-byte input `[1, 2, 3]`, mono. -/
theorem c6_odd_length_truncation_witness :
    ([1, 2, 3] : List Nat).length % 2 = 1 ∧
    decodeAudioData [1, 2, 3] 24000 1 =
      decodeAudioData (([1, 2, 3] : List Nat).take (([1, 2, 3] : List Nat).length - 1))
        24000 1 ∧
    (decodeAudioData [1, 2, 3] 24000 1).length = 1 ∧
    ∀ ch ∈ decodeAudioData [1, 2, 3] 24000 1,
      ch.length = (([1, 2, 3] : List Nat).length / 2) / 1 :=
  ⟨by decide, c6_odd_length_truncation [1, 2, 3] 24000 1 (by decide)⟩

/-! ## Base64, for `decodeBase64` (src/services/geminiService.ts lines
182-190) -/

/-- The base64 alphabet, in digit order. -/
def b64Alphabet : List Char :=
  "ABCDEFGHIJKLMNOPQRSTUVWXYZabcdefghijklmnopqrstuvwxyz0123456789+/".data

/-- Position of a character in a list of characters (leftmost match). -/
def findVal (c : Char) : List Char → Option Nat
  | [] => none
  | d :: rest => if d = c then some 0 else (findVal c rest).map (· + 1)

/-- The character encoding base64 digit `v`. -/
def b64Char (v : Nat) : Char := b64Alphabet.getD v '?'

/-- The digit value of a base64 character; `none` for a character outside
the alphabet (on which `atob` throws). -/
def b64Val (c : Char) : Option Nat := findVal c b64Alphabet

/-- Modelled from the spec: the browser `atob` primitive invoked by
`decodeBase64` is not part of the repository; it is the standard base64
decoder — each group of four alphabet characters yields three bytes, a
trailing `"=="` group yields one byte, a trailing `"="` group yields two,
and any other shape or foreign character is an error.  The binary-string
intermediate is represented directly by its list of char codes (bytes). -/
def atobBytes : List Char → Option (List Nat)
  | [] => some []
  | c0 :: c1 :: c2 :: c3 :: rest =>
    if c2 = '=' ∧ c3 = '=' ∧ rest = [] then
      match b64Val c0, b64Val c1 with
      | some v0, some v1 => some [v0 * 4 + v1 / 16]
      | _, _ => none
    else if c3 = '=' ∧ rest = [] then
      match b64Val c0, b64Val c1, b64Val c2 with
      | some v0, some v1, some v2 =>
        some [v0 * 4 + v1 / 16, v1 % 16 * 16 + v2 / 4]
      | _, _, _ => none
    else
      match b64Val c0, b64Val c1, b64Val c2, b64Val c3, atobBytes rest with
      | some v0, some v1, some v2, some v3, some bs =>
        some ((v0 * 4 + v1 / 16) :: (v1 % 16 * 16 + v2 / 4) :: (v2 % 4 * 64 + v3) :: bs)
      | _, _, _, _, _ => none
  | _ => none

/-- `decodeBase64` of src/services/geminiService.ts: `atob(base64)` followed
by collecting `charCodeAt(i)` of every position into a `Uint8Array`.  With
the binary string modelled as its byte list, the collection step is the
identity. -/
def decodeBase64 (base64 : List Char) : Option (List Nat) := atobBytes base64

/-- Modelled from the spec: standard base64 *encoding* of a byte sequence
(the inverse direction, `btoa` on a binary string), which the spec's
round-trip property applies to the PCM16 byte stream before feeding it to
`decodeBase64`. -/
def btoaBytes : List Nat → List Char
  | [] => []
  | [b0] => [b64Char (b0 / 4), b64Char (b0 % 4 * 16), '=', '=']
  | [b0, b1] =>
    [b64Char (b0 / 4), b64Char (b0 % 4 * 16 + b1 / 16), b64Char (b1 % 16 * 4), '=']
  | b0 :: b1 :: b2 :: rest =>
    b64Char (b0 / 4) :: b64Char (b0 % 4 * 16 + b1 / 16) ::
      b64Char (b1 % 16 * 4 + b2 / 64) :: b64Char (b2 % 64) :: btoaBytes rest

theorem b64Val_b64Char : ∀ v, v < 64 → b64Val (b64Char v) = some v := by decide

theorem b64Char_ne_pad : ∀ v, v < 64 → b64Char v ≠ '=' := by decide

theorem atobBytes_btoaBytes (bs : List Nat) (h : ∀ b ∈ bs, b < 256) :
    atobBytes (btoaBytes bs) = some bs := by
  match bs with
  | [] => simp [btoaBytes, atobBytes]
  | [b0] =>
    have hb0 : b0 < 256 := h b0 (by simp)
    have h0 := b64Val_b64Char (b0 / 4) (by omega)
    have h1 := b64Val_b64Char (b0 % 4 * 16) (by omega)
    simp only [btoaBytes, atobBytes, h0, h1, and_self, if_true]
    simp only [Option.some.injEq, List.cons.injEq, and_true]
    omega
  | [b0, b1] =>
    have hb0 : b0 < 256 := h b0 (by simp)
    have hb1 : b1 < 256 := h b1 (by simp)
    have h0 := b64Val_b64Char (b0 / 4) (by omega)
    have h1 := b64Val_b64Char (b0 % 4 * 16 + b1 / 16) (by omega)
    have h2 := b64Val_b64Char (b1 % 16 * 4) (by omega)
    have hne := b64Char_ne_pad (b1 % 16 * 4) (by omega)
    simp only [btoaBytes, atobBytes, h0, h1, h2, hne, false_and, if_false,
      and_self, if_true]
    simp only [Option.some.injEq, List.cons.injEq, and_true]
    omega
  | b0 :: b1 :: b2 :: b3 :: rest =>
    have hb0 : b0 < 256 := h b0 (by simp)
    have hb1 : b1 < 256 := h b1 (by simp)
    have hb2 : b2 < 256 := h b2 (by simp)
    have hrest : ∀ b ∈ b3 :: rest, b < 256 := fun b hb => h b (by simp [List.mem_cons] at hb ⊢; tauto)
    have ih := atobBytes_btoaBytes (b3 :: rest) hrest
    have h0 := b64Val_b64Char (b0 / 4) (by omega)
    have h1 := b64Val_b64Char (b0 % 4 * 16 + b1 / 16) (by omega)
    have h2 := b64Val_b64Char (b1 % 16 * 4 + b2 / 64) (by omega)
    have h3 := b64Val_b64Char (b2 % 64) (by omega)
    have hne2 := b64Char_ne_pad (b1 % 16 * 4 + b2 / 64) (by omega)
    have hne3 := b64Char_ne_pad (b2 % 64) (by omega)
    simp only [btoaBytes, atobBytes, h0, h1, h2, h3, ih, hne2, hne3,
      false_and, and_false, if_false]
    simp only [Option.some.injEq, List.cons.injEq, and_true]
    refine ⟨by omega, by omega, by omega⟩
  | [b0, b1, b2] =>
    have hb0 : b0 < 256 := h b0 (by simp)
    have hb1 : b1 < 256 := h b1 (by simp)
    have hb2 : b2 < 256 := h b2 (by simp)
    have h0 := b64Val_b64Char (b0 / 4) (by omega)
    have h1 := b64Val_b64Char (b0 % 4 * 16 + b1 / 16) (by omega)
    have h2 := b64Val_b64Char (b1 % 16 * 4 + b2 / 64) (by omega)
    have h3 := b64Val_b64Char (b2 % 64) (by omega)
    have hne2 := b64Char_ne_pad (b1 % 16 * 4 + b2 / 64) (by omega)
    have hne3 := b64Char_ne_pad (b2 % 64) (by omega)
    simp only [btoaBytes, atobBytes, h0, h1, h2, h3, hne2, hne3,
      false_and, and_false, if_false]
    simp only [Option.some.injEq, List.cons.injEq, and_true]
    refine ⟨by omega, by omega, by omega⟩

/-! ## PCM16 round trip (claim C7) -/

/-- Modelled from the spec: the little-endian two's-complement byte pair of
one signed 16-bit sample, the serialization the spec's round-trip property
starts from. -/
def int16ToLEBytes (s : Int) : List Nat :=
  let u := (s % 65536).toNat
  [u % 256, u / 256]

/-- Modelled from the spec: serialize a PCM16 sample sequence to its
little-endian byte stream. -/
def encodePCM16 : List Int → List Nat
  | [] => []
  | s :: rest => int16ToLEBytes s ++ encodePCM16 rest

theorem toInt16_leBytes (s : Int) (h1 : -32768 ≤ s) (h2 : s < 32768) :
    toInt16 ((s % 65536).toNat % 256) ((s % 65536).toNat / 256) = s := by
  simp only [toInt16]
  split <;> omega

theorem bytesToInt16_encodePCM16 (samples : List Int)
    (h : ∀ s ∈ samples, -32768 ≤ s ∧ s < 32768) :
    bytesToInt16 (encodePCM16 samples) = samples := by
  induction samples with
  | nil => rfl
  | cons s rest ih =>
    have hs := h s (by simp)
    have hrest : ∀ x ∈ rest, -32768 ≤ x ∧ x < 32768 := fun x hx => h x (by simp [hx])
    show bytesToInt16 ((s % 65536).toNat % 256 :: (s % 65536).toNat / 256 ::
      encodePCM16 rest) = s :: rest
    simp only [bytesToInt16]
    rw [toInt16_leBytes s hs.1 hs.2, ih hrest]

theorem encodePCM16_length (samples : List Int) :
    (encodePCM16 samples).length = 2 * samples.length := by
  induction samples with
  | nil => rfl
  | cons s rest ih =>
    simp only [encodePCM16, int16ToLEBytes, List.length_append, List.length_cons,
      List.length_nil, ih]
    omega

theorem encodePCM16_lt (samples : List Int) :
    ∀ b ∈ encodePCM16 samples, b < 256 := by
  induction samples with
  | nil => simp [encodePCM16]
  | cons s rest ih =>
    intro b hb
    simp only [encodePCM16, int16ToLEBytes, List.cons_append, List.nil_append,
      List.mem_cons] at hb
    rcases hb with rfl | rfl | hb
    · omega
    · omega
    · exact ih b hb

theorem range_map_getD {α β : Type} (l : List α) (d : α) (f : α → β) :
    (List.range l.length).map (fun i => f (l.getD i d)) = l.map f := by
  induction l with
  | nil => simp
  | cons a t ih =>
    rw [List.length_cons, List.range_succ_eq_map, List.map_cons, List.map_map]
    show f a :: List.map (fun i => f (t.getD i d)) (List.range t.length) =
      f a :: List.map f t
    rw [ih]

theorem decodeAudioData_mono (samples : List Int)
    (h : ∀ s ∈ samples, -32768 ≤ s ∧ s < 32768) :
    decodeAudioData (encodePCM16 samples) 24000 1 =
      [samples.map (fun s : ℤ => (s : ℚ) / 32768)] := by
  have heven : (encodePCM16 samples).length % 2 = 0 := by
    rw [encodePCM16_length]
    omega
  rw [decodeAudioData_even _ _ _ heven, encodePCM16_length,
    bytesToInt16_encodePCM16 samples h]
  have hn : 2 * samples.length / 2 / 1 = samples.length := by omega
  have hr1 : List.range 1 = [0] := rfl
  rw [hn, hr1, List.map_cons, List.map_nil]
  simp only [mul_one, add_zero]
  exact congrArg (· :: [])
    (range_map_getD samples (0 : ℤ) (fun s : ℤ => (s : ℚ) / 32768))

/-- Claim C7: the audio decode pipeline is a pure round trip.  For every
finite sequence of signed 16-bit samples, base64-encoding their
little-endian bytes and then running `decodeBase64` recovers the byte stream
exactly, and `decodeAudioData` (mono, 24 kHz) on that stream yields exactly
one channel whose `i`-th value is `sample_i / 32768`, each value lying in
`[-1, 1]`. -/
theorem c7_pcm_roundtrip (samples : List Int)
    (h : ∀ s ∈ samples, -32768 ≤ s ∧ s < 32768) :
    decodeBase64 (btoaBytes (encodePCM16 samples)) = some (encodePCM16 samples) ∧
    decodeAudioData (encodePCM16 samples) 24000 1 =
      [samples.map (fun s : ℤ => (s : ℚ) / 32768)] ∧
    ∀ v ∈ samples.map (fun s : ℤ => (s : ℚ) / 32768), -1 ≤ v ∧ v ≤ 1 := by
  refine ⟨atobBytes_btoaBytes _ (encodePCM16_lt samples),
    decodeAudioData_mono samples h, ?_⟩
  intro v hv
  simp only [List.mem_map] at hv
  obtain ⟨s, hs, rfl⟩ := hv
  obtain ⟨h1, h2⟩ := h s hs
  have h32 : (0 : ℚ) < 32768 := by norm_num
  have h1q : (-32768 : ℚ) ≤ (s : ℚ) := by exact_mod_cast h1
  have h2q : (s : ℚ) < 32768 := by exact_mod_cast h2
  constructor
  · rw [le_div_iff₀ h32]
    linarith
  · rw [div_le_iff₀ h32]
    linarith

/-- Witness for C7 at the spec's example samples `[0, 16384, -16384, 32767]`,
which decode to `[0, 1/2, -1/2, 32767/32768]`. -/
theorem c7_pcm_roundtrip_witness :
    (∀ s ∈ ([0, 16384, -16384, 32767] : List Int), -32768 ≤ s ∧ s < 32768) ∧
    (decodeBase64 (btoaBytes (encodePCM16 [0, 16384, -16384, 32767])) =
        some (encodePCM16 [0, 16384, -16384, 32767]) ∧
      decodeAudioData (encodePCM16 [0, 16384, -16384, 32767]) 24000 1 =
        [([0, 16384, -16384, 32767] : List Int).map (fun s : ℤ => (s : ℚ) / 32768)] ∧
      ∀ v ∈ ([0, 16384, -16384, 32767] : List Int).map (fun s : ℤ => (s : ℚ) / 32768),
        -1 ≤ v ∧ v ≤ 1) ∧
    ([0, 16384, -16384, 32767] : List Int).map (fun s : ℤ => (s : ℚ) / 32768) =
      [0, 1 / 2, -1 / 2, 32767 / 32768] :=
  ⟨by decide, c7_pcm_roundtrip [0, 16384, -16384, 32767] (by decide), by
    norm_num⟩

end AgriAide
